import Mathlib

/-!
# Verification of the Zettlr `update-check` command

Shallow embedding of `src/source/main/commands/update-check.js`:
the `run` / `_check` / `_parseResponse` pipeline that polls a release
feed, classifies transport failures, compares semantic versions and
renders a changelog.  External collaborators (the `JSON.parse` builtin,
the `semver` package, the `showdown` converter, the `trans` i18n lookup)
are modelled as executable Lean functions, each documented at its
definition site; the command's own control flow is translated line by
line from the source.
-/

namespace Zettlr

/-- JSON values as produced by the JavaScript builtin `JSON.parse`.
Numbers keep their source lexeme (their numeric value is never used by
the command, only truthiness and display). -/
inductive Json where
  | null
  | bool (b : Bool)
  | num (lexeme : String)
  | str (s : String)
  | arr (elems : List Json)
  | obj (fields : List (String × Json))

/-- Whitespace recognised by the JavaScript `String.prototype.trim`
builtin (modelled on the common ASCII cases plus NBSP). -/
def isJsWs (c : Char) : Bool :=
  c = ' ' || c = '\t' || c = '\n' || c = '\r' || c = '\x0b' || c = '\x0c' || c = '\xa0'

/-- Model of the JavaScript `String.prototype.trim` builtin: drops
leading and trailing whitespace. -/
def jsTrim (s : String) : String :=
  ⟨((s.toList.dropWhile isJsWs).reverse.dropWhile isJsWs).reverse⟩

/-- Whitespace accepted between tokens by the JSON grammar. -/
def isJsonWs (c : Char) : Bool :=
  c = ' ' || c = '\t' || c = '\n' || c = '\r'

/-- Skip JSON inter-token whitespace. -/
def skipWs : List Char → List Char
  | [] => []
  | c :: r => if isJsonWs c then skipWs r else c :: r

/-- The (modelled) message of the `SyntaxError` raised by `JSON.parse`
on malformed input. -/
def jsonErrMsg : String := "SyntaxError: Unexpected token in JSON"

/-- ASCII hexadecimal digit. -/
def isHexDig (c : Char) : Bool :=
  c.isDigit || ('a' ≤ c && c ≤ 'f') || ('A' ≤ c && c ≤ 'F')

/-- Parse a JSON string literal body (the opening quote already
consumed); returns the decoded string and the input after the closing
quote. -/
def parseStringLit : List Char → Option (String × List Char)
  | [] => none
  | '"' :: r => some ("", r)
  | '\\' :: e :: r =>
      match e with
      | '"' => (parseStringLit r).map (fun p => (⟨'"' :: p.1.toList⟩, p.2))
      | '\\' => (parseStringLit r).map (fun p => (⟨'\\' :: p.1.toList⟩, p.2))
      | '/' => (parseStringLit r).map (fun p => (⟨'/' :: p.1.toList⟩, p.2))
      | 'b' => (parseStringLit r).map (fun p => (⟨'\x08' :: p.1.toList⟩, p.2))
      | 'f' => (parseStringLit r).map (fun p => (⟨'\x0c' :: p.1.toList⟩, p.2))
      | 'n' => (parseStringLit r).map (fun p => (⟨'\n' :: p.1.toList⟩, p.2))
      | 'r' => (parseStringLit r).map (fun p => (⟨'\r' :: p.1.toList⟩, p.2))
      | 't' => (parseStringLit r).map (fun p => (⟨'\t' :: p.1.toList⟩, p.2))
      | 'u' =>
          match r with
          | a :: b :: c :: d :: r' =>
              if isHexDig a && isHexDig b && isHexDig c && isHexDig d then
                let hv := fun (ch : Char) =>
                  if ch.isDigit then ch.toNat - 48 else ch.toLower.toNat - 87
                let n := ((hv a * 16 + hv b) * 16 + hv c) * 16 + hv d
                (parseStringLit r').map (fun p => (⟨Char.ofNat n :: p.1.toList⟩, p.2))
              else none
          | _ => none
      | _ => none
  | c :: r =>
      if c.toNat < 32 then none
      else (parseStringLit r).map (fun p => (⟨c :: p.1.toList⟩, p.2))

/-- Parse the lexeme of a JSON number (sign, integer part without
leading zeros, optional fraction and exponent). -/
def parseNumberLex (l : List Char) : Option (String × List Char) :=
  let signAndRest : List Char × List Char := match l with
    | '-' :: r => (['-'], r)
    | _ => ([], l)
  let sign := signAndRest.1
  let l1 := signAndRest.2
  let intPart := l1.takeWhile (fun c => c.isDigit)
  let afterInt := l1.dropWhile (fun c => c.isDigit)
  if intPart.isEmpty then none
  else if intPart.length > 1 && intPart.head? == some '0' then none
  else
    let fracAndRest : List Char × List Char := match afterInt with
      | '.' :: r =>
          let ds := r.takeWhile (fun c => c.isDigit)
          if ds.isEmpty then ([], afterInt) else ('.' :: ds, r.dropWhile (fun c => c.isDigit))
      | _ => ([], afterInt)
    let frac := fracAndRest.1
    let afterFrac := fracAndRest.2
    if afterFrac == afterInt && afterInt.head? == some '.' then none
    else
      let expAndRest : List Char × List Char := match afterFrac with
        | 'e' :: '+' :: r => (['e', '+'], r)
        | 'e' :: '-' :: r => (['e', '-'], r)
        | 'e' :: r => (['e'], r)
        | 'E' :: '+' :: r => (['E', '+'], r)
        | 'E' :: '-' :: r => (['E', '-'], r)
        | 'E' :: r => (['E'], r)
        | _ => ([], afterFrac)
      let ex := expAndRest.1
      let afterExp := expAndRest.2
      if ex.isEmpty then some (⟨sign ++ intPart ++ frac⟩, afterFrac)
      else
        let ds := afterExp.takeWhile (fun c => c.isDigit)
        if ds.isEmpty then none
        else some (⟨sign ++ intPart ++ frac ++ ex ++ ds⟩, afterExp.dropWhile (fun c => c.isDigit))

mutual

/-- Parse one JSON value (fuel-bounded recursion; the fuel passed by
`jsonParse` is generous enough for any input of the given length). -/
def parseVal : Nat → List Char → Except String (Json × List Char)
  | 0, _ => .error jsonErrMsg
  | fuel + 1, l =>
    match skipWs l with
    | [] => .error jsonErrMsg
    | '"' :: r =>
        match parseStringLit r with
        | some (s, rest) => .ok (.str s, rest)
        | none => .error jsonErrMsg
    | '\x7b' :: r =>
        match skipWs r with
        | '\x7d' :: rest => .ok (.obj [], rest)
        | r' => parseObjItems fuel r' []
    | '[' :: r =>
        match skipWs r with
        | ']' :: rest => .ok (.arr [], rest)
        | r' => parseArrItems fuel r' []
    | 't' :: 'r' :: 'u' :: 'e' :: rest => .ok (.bool true, rest)
    | 'f' :: 'a' :: 'l' :: 's' :: 'e' :: rest => .ok (.bool false, rest)
    | 'n' :: 'u' :: 'l' :: 'l' :: rest => .ok (.null, rest)
    | c :: r =>
        if c = '-' || c.isDigit then
          match parseNumberLex (c :: r) with
          | some (lex, rest) => .ok (.num lex, rest)
          | none => .error jsonErrMsg
        else .error jsonErrMsg

/-- Parse the items of a non-empty JSON array (after `[`). -/
def parseArrItems : Nat → List Char → List Json → Except String (Json × List Char)
  | 0, _, _ => .error jsonErrMsg
  | fuel + 1, l, acc =>
    match parseVal fuel l with
    | .error m => .error m
    | .ok (v, rest) =>
        match skipWs rest with
        | ',' :: r2 => parseArrItems fuel r2 (acc ++ [v])
        | ']' :: r2 => .ok (.arr (acc ++ [v]), r2)
        | _ => .error jsonErrMsg

/-- Parse the members of a non-empty JSON object (after `{`). -/
def parseObjItems : Nat → List Char → List (String × Json) → Except String (Json × List Char)
  | 0, _, _ => .error jsonErrMsg
  | fuel + 1, l, acc =>
    match skipWs l with
    | '"' :: r =>
        match parseStringLit r with
        | none => .error jsonErrMsg
        | some (key, rest) =>
            match skipWs rest with
            | ':' :: r2 =>
                match parseVal fuel r2 with
                | .error m => .error m
                | .ok (v, rest2) =>
                    match skipWs rest2 with
                    | ',' :: r3 => parseObjItems fuel r3 (acc ++ [(key, v)])
                    | '\x7d' :: r3 => .ok (.obj (acc ++ [(key, v)]), r3)
                    | _ => .error jsonErrMsg
            | _ => .error jsonErrMsg
    | _ => .error jsonErrMsg

end

/-- Model of the JavaScript builtin `JSON.parse`: parses the whole
string as one JSON value, failing with a `SyntaxError` message
otherwise. -/
def jsonParse (s : String) : Except String Json :=
  let l := s.toList
  match parseVal (4 * (l.length + 4)) l with
  | .error m => .error m
  | .ok (v, rest) => if (skipWs rest).isEmpty then .ok v else .error jsonErrMsg

/-- Split a character list on every occurrence of `c` (the pieces do
not contain `c`; n separators give n + 1 pieces). -/
def splitOnCh (c : Char) : List Char → List (List Char)
  | [] => [[]]
  | x :: r =>
      match splitOnCh c r with
      | [] => [[]]
      | g :: gs => if x = c then [] :: g :: gs else (x :: g) :: gs

/-- Join strings with a separator. -/
def joinWith (sep : String) : List String → String
  | [] => ""
  | [x] => x
  | x :: xs => x ++ sep ++ joinWith sep xs

/-- Decimal digit character. -/
def natDigit (n : Nat) : Char := Char.ofNat (48 + n % 10)

/-- Decimal rendering of a natural (fuel-bounded; fuel `n + 1` always
suffices). -/
def natToStrGo : Nat → Nat → List Char → List Char
  | 0, _, acc => acc
  | f + 1, n, acc => if n < 10 then natDigit n :: acc else natToStrGo f (n / 10) (natDigit n :: acc)

/-- Decimal rendering of a natural number. -/
def natToStr (n : Nat) : String := ⟨natToStrGo (n + 1) n []⟩

/-- Apply a fallible function to every element, failing when any
application fails. -/
def mapOpt (f : α → Option β) : List α → Option (List β)
  | [] => some []
  | x :: xs =>
      match f x with
      | none => none
      | some y => (mapOpt f xs).map (fun ys => y :: ys)

/-- JavaScript property lookup `obj[k]` on a parsed JSON value:
`none` models the JavaScript value `undefined`.  Duplicate keys keep
the last occurrence, as `JSON.parse` does. -/
def getField (j : Json) (k : String) : Option Json :=
  match j with
  | .obj fs => fs.foldl (fun acc p => if p.1 = k then some p.2 else acc) none
  | _ => none

/-- JavaScript indexing `v[i]` on a parsed JSON value (array element,
numeric-keyed object property, or string character); `none` models
`undefined`. -/
def jsIndex (j : Json) (i : Nat) : Option Json :=
  match j with
  | .arr l => l.get? i
  | .obj _ => getField j (natToStr i)
  | .str s => (s.toList.get? i).map (fun c => .str ⟨[c]⟩)
  | _ => none

/-- Whether a JSON number lexeme denotes zero (sign and exponent do not
affect zeroness). -/
def numLexIsZero (lex : String) : Bool :=
  let m := lex.toList.takeWhile (fun c => c != 'e' && c != 'E')
  (m.filter (fun c => c.isDigit)).all (fun c => c = '0')

/-- JavaScript truthiness of a (possibly `undefined`) parsed JSON
value, as used by the `!` operator in the source. -/
def jsTruthy : Option Json → Bool
  | none => false
  | some .null => false
  | some (.bool b) => b
  | some (.num lex) => !numLexIsZero lex
  | some (.str s) => !(s == "")
  | some (.arr _) => true
  | some (.obj _) => true

/-- JavaScript string interpolation of a (possibly `undefined`) value,
used only to render diagnostic messages. -/
def jsDisplay : Option Json → String
  | none => "undefined"
  | some .null => "null"
  | some (.bool b) => if b then "true" else "false"
  | some (.num lex) => lex
  | some (.str s) => s
  | some (.arr _) => ""
  | some (.obj _) => "[object Object]"

/-- One dot-separated semantic-version prerelease identifier: numeric
identifiers order numerically and below alphanumeric ones. -/
inductive PreId where
  | num (n : Nat)
  | alpha (s : String)
deriving DecidableEq

/-- A parsed semantic version as the `semver` package's `SemVer` class
holds it (build metadata is validated but discarded, as it never
affects precedence). -/
structure SemVer where
  major : Nat
  minor : Nat
  patch : Nat
  pre : List PreId
deriving DecidableEq

/-- Decimal value of a digit list. -/
def charsToNat (l : List Char) : Nat := l.foldl (fun a c => a * 10 + (c.toNat - 48)) 0

/-- Numeric version component: digits only, no leading zero. -/
def parseNumId (s : String) : Option Nat :=
  let l := s.toList
  if l.isEmpty then none
  else if !(l.all (fun c => c.isDigit)) then none
  else if l.length > 1 && l.head? == some '0' then none
  else some (charsToNat l)

/-- Characters allowed in prerelease and build identifiers. -/
def isIdentChar (c : Char) : Bool := c.isAlphanum || c = '-'

/-- Prerelease identifier: fully numeric (no leading zero) or
alphanumeric over `[0-9A-Za-z-]`. -/
def parsePreId (s : String) : Option PreId :=
  let l := s.toList
  if l.isEmpty then none
  else if l.all (fun c => c.isDigit) then
    if l.length > 1 && l.head? == some '0' then none else some (.num (charsToNat l))
  else if l.all isIdentChar then some (.alpha s)
  else none

/-- Split a character list at the first occurrence of `c`; `none` when
`c` does not occur. -/
def splitAtFirstCh (c : Char) : List Char → Option (List Char × List Char)
  | [] => none
  | x :: r => if x = c then some ([], r) else (splitAtFirstCh c r).map (fun p => (x :: p.1, p.2))

/-- Models `new SemVer(version)` of the `semver` package in strict
mode: trims the input, allows one optional leading `v`, requires
`major.minor.patch` with no leading zeros, an optional dot-separated
prerelease after a hyphen and optional build metadata after a plus
sign; `none` models the thrown `TypeError: Invalid Version`. -/
def parseSemVer (s : String) : Option SemVer :=
  let cs0 := (jsTrim s).toList
  let cs := match cs0 with
    | 'v' :: rest => rest
    | _ => cs0
  let coreAndBuild : List Char × Option (List Char) := match splitAtFirstCh '+' cs with
    | none => (cs, none)
    | some p => (p.1, some p.2)
  let buildOk := match coreAndBuild.2 with
    | none => true
    | some b =>
        (splitOnCh '.' b).all (fun i => !i.isEmpty && i.all isIdentChar)
  let mainAndPre : List Char × Option (List Char) := match splitAtFirstCh '-' coreAndBuild.1 with
    | none => (coreAndBuild.1, none)
    | some p => (p.1, some p.2)
  if !buildOk then none
  else match (splitOnCh '.' mainAndPre.1).map String.mk with
    | [ma, mi, pa] =>
        match parseNumId ma, parseNumId mi, parseNumId pa with
        | some major, some minor, some patch =>
            match mainAndPre.2 with
            | none => some ⟨major, minor, patch, []⟩
            | some preChars =>
                match mapOpt parsePreId ((splitOnCh '.' preChars).map String.mk) with
                | some ids => some ⟨major, minor, patch, ids⟩
                | none => none
        | _, _, _ => none
    | _ => none

/-- Three-way comparison of naturals. -/
def cmpNat (a b : Nat) : Ordering := if a < b then .lt else if b < a then .gt else .eq

/-- Code-unit lexicographic comparison, as JavaScript's `<` on
strings. -/
def cmpChars : List Char → List Char → Ordering
  | [], [] => .eq
  | [], _ :: _ => .lt
  | _ :: _, [] => .gt
  | a :: as, b :: bs => if a < b then .lt else if b < a then .gt else cmpChars as bs

/-- Compare prerelease identifiers: numeric before alphanumeric,
numeric numerically, alphanumeric lexically. -/
def cmpPreId : PreId → PreId → Ordering
  | .num a, .num b => cmpNat a b
  | .num _, .alpha _ => .lt
  | .alpha _, .num _ => .gt
  | .alpha a, .alpha b => cmpChars a.toList b.toList

/-- Compare prerelease identifier lists positionally; a strict prefix
sorts first. -/
def cmpPreList : List PreId → List PreId → Ordering
  | [], [] => .eq
  | [], _ :: _ => .lt
  | _ :: _, [] => .gt
  | a :: as, b :: bs => match cmpPreId a b with | .eq => cmpPreList as bs | o => o

/-- Semantic-version precedence as implemented by the `semver`
package: compare major, minor, patch numerically; a version with a
prerelease sorts below the same core version without one; otherwise
prereleases compare positionally. -/
def semverCompare (a b : SemVer) : Ordering :=
  match cmpNat a.major b.major with
  | .eq =>
    match cmpNat a.minor b.minor with
    | .eq =>
      match cmpNat a.patch b.patch with
      | .eq =>
        match a.pre, b.pre with
        | [], [] => .eq
        | [], _ :: _ => .gt
        | _ :: _, [] => .lt
        | p, q => cmpPreList p q
      | o => o
    | o => o
  | o => o

/-- Models `semver.lt a b` of the `semver` package (on already parsed
versions). -/
def semverLtB (a b : SemVer) : Bool := semverCompare a b == Ordering.lt

/-- GitHub-compatible heading id: lowercase, spaces to dashes, other
punctuation dropped. -/
def slugify (t : String) : String :=
  ⟨t.toList.filterMap (fun c =>
    if c = ' ' then some '-'
    else if c.isAlphanum || c = '-' then some c.toLower
    else none)⟩

/-- Split at the first occurrence of `c`, keeping the part before and
the part after it. -/
def findCh (c : Char) (l : List Char) : Option (List Char × List Char) := splitAtFirstCh c l

/-- Inline markdown links `[text](url)` rendered as anchors
(fuel-bounded scan; fuel `length + 1` always suffices). -/
def renderInlineGo : Nat → List Char → List Char
  | 0, l => l
  | _ + 1, [] => []
  | fuel + 1, '[' :: r =>
    match findCh ']' r with
    | some (txt, '(' :: r2) =>
        match findCh ')' r2 with
        | some (url, rest) =>
            "<a href=\"".toList ++ url ++ "\">".toList ++ txt ++ "</a>".toList ++
              renderInlineGo fuel rest
        | none => '[' :: renderInlineGo fuel r
    | _ => '[' :: renderInlineGo fuel r
  | fuel + 1, c :: r => c :: renderInlineGo fuel r

/-- Render one markdown line: an ATX heading of level `k` (1–6 number
signs then a space) becomes an HTML heading of level `k + 1` because
the converter is configured with `headerLevelStart 2`; blank lines are
dropped; any other line becomes a paragraph with inline links
rendered. -/
def renderLine (line : String) : Option String :=
  let cs := line.toList
  let hashes := cs.takeWhile (fun c => c = '#')
  let k := hashes.length
  if 1 ≤ k && k ≤ 6 && ((cs.drop k).head? == some ' ') then
    let title : String := ⟨(cs.drop (k + 1)).dropWhile (fun c => c = ' ')⟩
    let lvl := natToStr (k + 1)
    some ("<h" ++ lvl ++ " id=\"" ++ slugify title ++ "\">" ++ title ++ "</h" ++ lvl ++ ">")
  else if jsTrim line = "" then none
  else some ("<p>" ++ String.mk (renderInlineGo (cs.length + 1) cs) ++ "</p>")

/-- Models the external `showdown` converter as configured by the
source (`headerLevelStart 2`, GitHub flavor), restricted to the
constructs the release notes exercise: ATX headings are shifted one
level down (a top-level `#` heading renders as `<h2>`), other lines
become paragraphs with inline links as anchors. -/
def makeHtml (text : String) : String :=
  joinWith "\n" (((splitOnCh '\n' text.toList).map String.mk).filterMap renderLine)

/-- The attribute text the source splices into every matched anchor:
an activation handler that opens the link externally, plus the
`target="_blank"` fallback. -/
def anchorAttrs : String :=
  " onclick=\"require(\x27electron\x27).shell.openExternal(this.getAttribute(\x27href\x27)); return false;\" target=\"_blank\""

/-- Locate the first `>` in the input (the lazy `(.+?)>` tail of the
anchor pattern): returns the characters before it and the rest after
it, failing at a newline or the end of input, since `.` matches no
newline. -/
def findGt : List Char → Option (List Char × List Char)
  | [] => none
  | c :: r =>
      if c = '>' then some ([], r)
      else if c = '\n' then none
      else (findGt r).map (fun p => (c :: p.1, p.2))

/-- Match the regex fragment `(.+?)>`: at least one non-newline
character, then the next `>` (a leading `>` is consumed into the
group, as the lazy one-or-more quantifier requires). -/
def findGtMin1 : List Char → Option (List Char × List Char)
  | [] => none
  | c :: r =>
      if c = '\n' then none
      else (findGt r).map (fun p => (c :: p.1, p.2))

/-- Match the regex fragment `(.*?)<\/a>`: the characters before the
first `</a>`, failing at a newline or the end of input. -/
def findCloseA : List Char → Option (List Char × List Char)
  | [] => none
  | '<' :: '/' :: 'a' :: '>' :: r => some ([], r)
  | c :: r =>
      if c = '\n' then none
      else (findCloseA r).map (fun p => (c :: p.1, p.2))

/-- The source's global regex replacement
`html.replace(/<a(.+?)>(.*?)<\/a>/g, ...)`: each matched anchor keeps
its attributes and text but gains `anchorAttrs`; unmatched text is
copied unchanged (fuel-bounded scan; fuel `length + 1` always
suffices). -/
def rewriteGo : Nat → List Char → List Char
  | 0, l => l
  | _ + 1, [] => []
  | fuel + 1, '<' :: 'a' :: r =>
      (match findGtMin1 r with
      | none => '<' :: rewriteGo fuel ('a' :: r)
      | some (p1, afterGt) =>
          match findCloseA afterGt with
          | none => '<' :: rewriteGo fuel ('a' :: r)
          | some (p2, rest) =>
              '<' :: 'a' :: (p1 ++ anchorAttrs.toList ++ '>' :: p2 ++ "</a>".toList) ++
                rewriteGo fuel rest)
  | fuel + 1, c :: r => c :: rewriteGo fuel r

/-- Post-process rendered HTML so every matched hyperlink opens
externally (string form of `rewriteGo`). -/
def rewriteAnchors (s : String) : String := ⟨rewriteGo (s.length + 1) s.toList⟩

/-- Models the i18n collaborator `trans`: renders a translation key
with its interpolated arguments (the key identifies the localized
template). -/
def trans (key : String) (args : List String) : String :=
  key ++ String.join (args.map (fun a => " " ++ a))

/-- Every way the update check can fail, one constructor per `throw`
site of the source plus `jsException` for raw JavaScript runtime
exceptions that the command does not wrap (the `SyntaxError` of
`JSON.parse`, the `TypeError`s of property access on `undefined` and
of `new SemVer` on an invalid version). -/
inductive CheckError where
  | serverError (status : Nat)
  | clientError (status : Nat)
  | redirectError (status : Nat)
  | connectionError
  | unknownTransport (code : Option String) (msg : String)
  | noData
  | noUpdate
  | jsException (msg : String)
deriving DecidableEq

/-- The single human-readable message each failure carries (the
`message` of the thrown `Error`). -/
def CheckError.message : CheckError → String
  | .serverError s => trans "dialog.update.server_error" [natToStr s]
  | .clientError s => trans "dialog.update.client_error" [natToStr s]
  | .redirectError s => trans "dialog.update.redirect_error" [natToStr s]
  | .connectionError => trans "dialog.update.connection_error" []
  | .unknownTransport code msg =>
      "Could not check for updates. " ++ code.getD "undefined" ++ ": " ++ msg
  | .noData => trans "dialog.update.no_data" []
  | .noUpdate => trans "dialog.update.no_update" []
  | .jsException msg => msg

/-- The inputs the check reads besides the response: the running
application version (`CUR_VER` from `package.json`) and the persisted
`checkForBeta` setting. -/
structure Config where
  curVer : String
  checkForBeta : Bool

/-- The update data object returned by `_parseResponse` on success.
`releaseURL` and `isBeta` copy the raw field values of the release
record (`none` models `undefined` when the field is absent). -/
structure UpdateDecision where
  newVer : String
  curVer : String
  changelog : String
  releaseURL : Option Json
  isBeta : Option Json
  downloadURL : String

/-- The `TypeError` raised when reading property `p` of `undefined`. -/
def undefAccessMsg (p : String) : String :=
  "TypeError: Cannot read property \x27" ++ p ++ "\x27 of undefined"

/-- The `TypeError` raised by `new SemVer` on an invalid version. -/
def invalidVersionMsg (v : String) : String :=
  "TypeError: Invalid Version: " ++ v

/-- The body of `_parseResponse` after `JSON.parse` succeeded,
translated statement by statement:
`acceptRelease = checkForBeta`, overwritten with `!releases[0].prerelease`
when the setting is off; then the decision condition
`semver.lt(CUR_VER, releases[0].tag_name) && acceptRelease && !releases[0].draft`,
with each JavaScript evaluation step that can throw modelled as the
corresponding `jsException`. -/
def parseResponseJson (cfg : Config) (parsed : Json) : Except CheckError UpdateDecision :=
  let first0 := jsIndex parsed 0
  match (if cfg.checkForBeta then some true
         else first0.map (fun r => !jsTruthy (getField r "prerelease"))) with
  | none => .error (.jsException (undefAccessMsg "prerelease"))
  | some acceptRelease =>
    match first0 with
    | none => .error (.jsException (undefAccessMsg "tag_name"))
    | some r =>
      match parseSemVer cfg.curVer with
      | none => .error (.jsException (invalidVersionMsg cfg.curVer))
      | some cur =>
        let tagVal := getField r "tag_name"
        match (match tagVal with
               | some (Json.str s) => parseSemVer s |>.map (fun v => (s, v))
               | _ => none) with
        | none => .error (.jsException (invalidVersionMsg (jsDisplay tagVal)))
        | some (tag, tv) =>
          if semverLtB cur tv && acceptRelease && !jsTruthy (getField r "draft") then
            match getField r "body" with
            | some (Json.str b) =>
                .ok { newVer := tag
                      curVer := cfg.curVer
                      changelog := rewriteAnchors (makeHtml b)
                      releaseURL := getField r "html_url"
                      isBeta := getField r "prerelease"
                      downloadURL := "" }
            | _ => .error (.jsException "TypeError: makeHtml expects a string")
          else .error .noUpdate

/-- Embedding of `_parseResponse` on a response body: the blank-body guard throws
`no_data` before anything is parsed; then `JSON.parse` runs, its
`SyntaxError` escaping unwrapped; then the release logic. -/
def parseResponse (cfg : Config) (body : String) : Except CheckError UpdateDecision :=
  if jsTrim body = "" then .error .noData
  else match jsonParse body with
    | .error m => .error (.jsException m)
    | .ok parsed => parseResponseJson cfg parsed

/-- The catch-block of `_check`, classifying a failed `got` request.
`statusCode` is `none` when the error object carries no HTTP status
(a JavaScript comparison with `undefined` is false, so all three
status tests fall through), `code` is the error's `code` property. -/
def classifyTransport (statusCode : Option Nat) (code : Option String) (msg : String) : CheckError :=
  match statusCode with
  | some s =>
      if 500 ≤ s then .serverError s
      else if 400 ≤ s then .clientError s
      else if 300 ≤ s then .redirectError s
      else if code = some "ENOTFOUND" then .connectionError
      else .unknownTransport code msg
  | none =>
      if code = some "ENOTFOUND" then .connectionError
      else .unknownTransport code msg

/-- What the single `got` GET came back with: a response body, or a
failure described by its optional HTTP status, error code and
message. -/
inductive FetchOutcome where
  | success (body : String)
  | failure (statusCode : Option Nat) (code : Option String) (msg : String)

/-- The `this._response` instance field over its lifetime: first the
raw body string, then (mutated inside `_parseResponse`) the parsed
JSON value. -/
inductive Slot where
  | str (s : String)
  | val (j : Json)

/-- Embedding of `_parseResponse` with the mutation of `this._response` made
explicit: reads the stored body, overwrites the field with the parsed
value, and returns the result together with the new field contents. -/
def parseResponseSt (cfg : Config) (st : Slot) : Except CheckError UpdateDecision × Slot :=
  match st with
  | .val j => (.error (.jsException "TypeError: this._response.trim is not a function"), .val j)
  | .str body =>
      if jsTrim body = "" then (.error .noData, .str body)
      else match jsonParse body with
        | .error m => (.error (.jsException m), .str body)
        | .ok parsed => (parseResponseJson cfg parsed, .val parsed)

/-- Embedding of `_check`: on transport failure the classified error is thrown and
the instance field is left untouched; on success the field is
overwritten with the fresh body and `_parseResponse` runs. -/
def checkSt (cfg : Config) (st : Slot) (fetch : FetchOutcome) :
    Except CheckError UpdateDecision × Slot :=
  match fetch with
  | .failure statusCode code msg => (.error (classifyTransport statusCode code msg), st)
  | .success body => parseResponseSt cfg (.str body)

/-- What `run` forwards: the success value on the `update-available`
channel, or the failure's message on the notification channel. -/
inductive RunEffect where
  | updateAvailable (d : UpdateDecision)
  | notify (msg : String)

/-- Embedding of `run()`: resolves the check, forwards its outcome, and always
returns `true`; the trailing components are the emitted effect and the
instance field afterwards. -/
def run (cfg : Config) (st : Slot) (fetch : FetchOutcome) : Bool × RunEffect × Slot :=
  match checkSt cfg st fetch with
  | (.ok d, st') => (true, .updateAvailable d, st')
  | (.error e, st') => (true, .notify e.message, st')

/-- The decision value `_parseResponse` builds from the first release
record when the update is accepted. -/
def mkDecision (cfg : Config) (r : Json) (tag b : String) : UpdateDecision :=
  { newVer := tag
    curVer := cfg.curVer
    changelog := rewriteAnchors (makeHtml b)
    releaseURL := getField r "html_url"
    isBeta := getField r "prerelease"
    downloadURL := "" }

/-- Characterization of the post-parse logic on a feed whose first
record is a well-formed release object: the result is the decision
exactly when the new tag is semver-greater, the release is no draft,
and prereleases are either accepted or absent; otherwise the
`no_update` error. -/
theorem parseResponseJson_wf (cfg : Config) (r : Json) (rest : List Json)
    (tag b : String) (dr pr : Bool) (cv tv : SemVer)
    (htag : getField r "tag_name" = some (.str tag))
    (hb : getField r "body" = some (.str b))
    (hdr : getField r "draft" = some (.bool dr))
    (hpr : getField r "prerelease" = some (.bool pr))
    (hcv : parseSemVer cfg.curVer = some cv)
    (htv : parseSemVer tag = some tv) :
    parseResponseJson cfg (.arr (r :: rest)) =
      if semverLtB cv tv && (cfg.checkForBeta || !pr) && !dr then
        .ok (mkDecision cfg r tag b)
      else .error .noUpdate := by
  obtain ⟨cvs, beta⟩ := cfg
  simp only [Config.curVer] at hcv
  cases beta <;>
    simp only [parseResponseJson, jsIndex, List.get?, Option.map_some, mkDecision,
      hpr, hdr, htag, hb, hcv, htv, jsTruthy, Option.map] <;>
    cases h1 : semverLtB cv tv <;> cases dr <;> cases pr <;>
      simp [Config.checkForBeta, Config.curVer]

/-- Lift of the characterization through `parseResponse` on a non-blank body parsing to such a feed. -/
theorem parseResponse_wf (cfg : Config) (r : Json) (rest : List Json)
    (body tag b : String) (dr pr : Bool) (cv tv : SemVer)
    (hnb : jsTrim body ≠ "")
    (hp : jsonParse body = .ok (.arr (r :: rest)))
    (htag : getField r "tag_name" = some (.str tag))
    (hb : getField r "body" = some (.str b))
    (hdr : getField r "draft" = some (.bool dr))
    (hpr : getField r "prerelease" = some (.bool pr))
    (hcv : parseSemVer cfg.curVer = some cv)
    (htv : parseSemVer tag = some tv) :
    parseResponse cfg body =
      if semverLtB cv tv && (cfg.checkForBeta || !pr) && !dr then
        .ok (mkDecision cfg r tag b)
      else .error .noUpdate := by
  simp only [parseResponse]
  rw [if_neg hnb, hp]
  exact parseResponseJson_wf cfg r rest tag b dr pr cv tv htag hb hdr hpr hcv htv

/-- A sample well-formed release record (the spec's scenario). -/
def sampleRecord : Json :=
  .obj [("tag_name", .str "1.3.0"), ("draft", .bool false), ("prerelease", .bool false),
        ("body", .str "# Notes"), ("html_url", .str "https://x/1.3.0")]

/-- The feed body whose single record is `sampleRecord`. -/
def sampleBody : String :=
  "[\x7b\"tag_name\": \"1.3.0\", \"draft\": false, \"prerelease\": false, \"body\": \"# Notes\", \"html_url\": \"https://x/1.3.0\"\x7d]"

/-- A sample prerelease record. -/
def betaRecord : Json :=
  .obj [("tag_name", .str "1.3.0-beta.1"), ("draft", .bool false), ("prerelease", .bool true),
        ("body", .str "x"), ("html_url", .str "https://x/beta")]

/-- The feed body whose single record is `betaRecord`. -/
def betaBody : String :=
  "[\x7b\"tag_name\": \"1.3.0-beta.1\", \"draft\": false, \"prerelease\": true, \"body\": \"x\", \"html_url\": \"https://x/beta\"\x7d]"

/-- C1: for a parseable, non-blank feed whose first record is a
well-formed release, `_parseResponse` returns an update object exactly
when the record's `tag_name` is semver-greater than the running
version, the record is no draft, and it is no prerelease unless
`checkForBeta` accepts one; in every other case it throws the
`no_update` error. -/
theorem update_decision_iff (cfg : Config) (r : Json) (rest : List Json)
    (body tag b : String) (dr pr : Bool) (cv tv : SemVer)
    (hnb : jsTrim body ≠ "")
    (hp : jsonParse body = .ok (.arr (r :: rest)))
    (htag : getField r "tag_name" = some (.str tag))
    (hb : getField r "body" = some (.str b))
    (hdr : getField r "draft" = some (.bool dr))
    (hpr : getField r "prerelease" = some (.bool pr))
    (hcv : parseSemVer cfg.curVer = some cv)
    (htv : parseSemVer tag = some tv) :
    ((semverLtB cv tv && !dr && (cfg.checkForBeta || !pr)) = true ↔
      ∃ d, parseResponse cfg body = .ok d) ∧
    ((semverLtB cv tv && !dr && (cfg.checkForBeta || !pr)) = false →
      parseResponse cfg body = .error .noUpdate) := by
  obtain ⟨cvs, beta⟩ := cfg
  have h := parseResponse_wf ⟨cvs, beta⟩ r rest body tag b dr pr cv tv
    hnb hp htag hb hdr hpr hcv htv
  rw [h]
  cases semverLtB cv tv <;> cases dr <;> cases pr <;> cases beta <;> simp

/-- Witness for C1 at the spec's scenario feed. -/
theorem update_decision_iff_witness :
    ((semverLtB ⟨1, 2, 0, []⟩ ⟨1, 3, 0, []⟩ && !false && ((false : Bool) || !false)) = true ↔
      ∃ d, parseResponse ⟨"1.2.0", false⟩ sampleBody = .ok d) ∧
    ((semverLtB ⟨1, 2, 0, []⟩ ⟨1, 3, 0, []⟩ && !false && ((false : Bool) || !false)) = false →
      parseResponse ⟨"1.2.0", false⟩ sampleBody = .error .noUpdate) :=
  update_decision_iff ⟨"1.2.0", false⟩ sampleRecord [] sampleBody "1.3.0" "# Notes"
    false false ⟨1, 2, 0, []⟩ ⟨1, 3, 0, []⟩ (by decide) rfl rfl rfl rfl rfl rfl rfl

/-- C2 (counterexample): the claim reads the code's ENOTFOUND branch
as requiring an absent status, with every remaining failure yielding
the unlocalized unknown-transport message; but the source's three
status tests merely fall through for any status below 300, so an error
carrying status 100 together with code ENOTFOUND is classified as a
connection error, not as the claimed unknown-transport case. -/
theorem transport_taxonomy_counterexample :
    classifyTransport (some 100) (some "ENOTFOUND") "getaddrinfo ENOTFOUND api.github.com" =
      CheckError.connectionError ∧
    classifyTransport (some 100) (some "ENOTFOUND") "getaddrinfo ENOTFOUND api.github.com" ≠
      CheckError.unknownTransport (some "ENOTFOUND") "getaddrinfo ENOTFOUND api.github.com" := by
  decide

/-- C2 (amended): `_check` classifies a failed request by disjoint
cases: status at least 500 is a server error carrying the status,
status in [400, 500) a client error, status in [300, 400) a redirect
error, and — the status being absent or below 300 — code ENOTFOUND a
connection error and anything else the unlocalized unknown-transport
message embedding code and text; in particular status 503 yields the
server-error kind carrying 503. -/
theorem transport_classification (s : Nat) (code : Option String) (msg : String) :
    (500 ≤ s → classifyTransport (some s) code msg = .serverError s) ∧
    (400 ≤ s → s < 500 → classifyTransport (some s) code msg = .clientError s) ∧
    (300 ≤ s → s < 400 → classifyTransport (some s) code msg = .redirectError s) ∧
    (s < 300 → code = some "ENOTFOUND" → classifyTransport (some s) code msg = .connectionError) ∧
    (code = some "ENOTFOUND" → classifyTransport none code msg = .connectionError) ∧
    (s < 300 → code ≠ some "ENOTFOUND" →
      classifyTransport (some s) code msg = .unknownTransport code msg) ∧
    (code ≠ some "ENOTFOUND" → classifyTransport none code msg = .unknownTransport code msg) ∧
    classifyTransport (some 503) code msg = .serverError 503 := by
  refine ⟨?_, ?_, ?_, ?_, ?_, ?_, ?_, ?_⟩ <;>
    simp only [classifyTransport] <;> intros <;> split_ifs <;>
    first
    | rfl
    | omega
    | simp_all

/-- Witness for C2's amended classification. -/
theorem transport_classification_witness :
    classifyTransport (some 503) none "Internal Server Error" = .serverError 503 ∧
    classifyTransport none (some "ENOTFOUND") "getaddrinfo ENOTFOUND" = .connectionError ∧
    classifyTransport none (some "ECONNRESET") "socket hang up" =
      .unknownTransport (some "ECONNRESET") "socket hang up" :=
  ⟨(transport_classification 503 none "Internal Server Error").1 (by decide),
   (transport_classification 0 (some "ENOTFOUND") "getaddrinfo ENOTFOUND").2.2.2.2.1 rfl,
   (transport_classification 0 (some "ECONNRESET") "socket hang up").2.2.2.2.2.2.1 (by decide)⟩

/-- C3: a body that is empty or all whitespace makes `_parseResponse`
throw the `no_data` error (the guard runs before the JSON parse, so no
release record is ever examined). -/
theorem blank_body_no_data (cfg : Config) (body : String)
    (h : body.toList.all isJsWs = true) :
    parseResponse cfg body = .error .noData := by
  have h1 : List.dropWhile isJsWs body.data = [] := by
    rw [List.dropWhile_eq_nil_iff]
    intro x hx
    exact List.all_eq_true.mp h x hx
  have h2 : jsTrim body = "" := by
    simp only [jsTrim, String.toList, h1, List.reverse_nil, List.dropWhile_nil]
  simp [parseResponse, h2]

/-- Witness for C3 on a whitespace-only body. -/
theorem blank_body_no_data_witness :
    parseResponse ⟨"1.0.0", false⟩ " \n\t " = .error .noData :=
  blank_body_no_data ⟨"1.0.0", false⟩ " \n\t " (by decide)

/-- C4 (counterexample): on the non-blank, invalid body `not json`
the check fails with the raw `SyntaxError` of the JSON parser, passed
through unwrapped as the failure's message — there is no distinct
ParseError classification in the code. -/
theorem parse_failure_counterexample :
    parseResponse ⟨"1.0.0", false⟩ "not json" = .error (.jsException jsonErrMsg) ∧
    (CheckError.jsException jsonErrMsg).message = jsonErrMsg :=
  ⟨rfl, rfl⟩

/-- C4 (amended): a non-blank body that the JSON parser rejects makes
the check fail with the parser's own exception, escaping
`_parseResponse` unwrapped (its raw message becomes the failure
message); it is not folded into the transport-error taxonomy. -/
theorem parse_failure_raw_exception (cfg : Config) (body m : String)
    (hnb : jsTrim body ≠ "") (hp : jsonParse body = .error m) :
    parseResponse cfg body = .error (.jsException m) ∧
    (CheckError.jsException m).message = m := by
  refine ⟨?_, rfl⟩
  simp only [parseResponse]
  rw [if_neg hnb, hp]

/-- Witness for C4's amended statement. -/
theorem parse_failure_raw_exception_witness :
    parseResponse ⟨"2.0.0", true⟩ "undefined" = .error (.jsException jsonErrMsg) ∧
    (CheckError.jsException jsonErrMsg).message = jsonErrMsg :=
  parse_failure_raw_exception ⟨"2.0.0", true⟩ "undefined" jsonErrMsg (by decide) rfl

/-- C5: whenever an update object is produced, its changelog is the
anchor-rewritten rendering of the first record's body — the rendering
shifts heading levels so a top-level markup heading becomes a
second-level HTML heading (instantiated on the spec's scenario body in
the second conjunct), and the rewriting splices the external-open
activation handler plus the `target="_blank"` fallback into each
rendered hyperlink (instantiated in the third conjunct). -/
theorem changelog_rendering (cfg : Config) (r : Json) (rest : List Json)
    (body tag b : String) (dr pr : Bool) (cv tv : SemVer) (d : UpdateDecision)
    (hnb : jsTrim body ≠ "")
    (hp : jsonParse body = .ok (.arr (r :: rest)))
    (htag : getField r "tag_name" = some (.str tag))
    (hb : getField r "body" = some (.str b))
    (hdr : getField r "draft" = some (.bool dr))
    (hpr : getField r "prerelease" = some (.bool pr))
    (hcv : parseSemVer cfg.curVer = some cv)
    (htv : parseSemVer tag = some tv)
    (hok : parseResponse cfg body = .ok d) :
    d.changelog = rewriteAnchors (makeHtml b) ∧
    makeHtml "# Notes" = "<h2 id=\"notes\">Notes</h2>" ∧
    rewriteAnchors "<a href=\"https://x\">note</a>" =
      "<a href=\"https://x\"" ++ anchorAttrs ++ ">note</a>" := by
  refine ⟨?_, rfl, rfl⟩
  rw [parseResponse_wf cfg r rest body tag b dr pr cv tv hnb hp htag hb hdr hpr hcv htv] at hok
  by_cases hc : (semverLtB cv tv && (cfg.checkForBeta || !pr) && !dr) = true
  · rw [if_pos hc] at hok
    have hd := Except.ok.inj hok
    rw [← hd]
    rfl
  · rw [if_neg hc] at hok
    simp at hok

/-- Witness for C5 at the spec's scenario feed. -/
theorem changelog_rendering_witness :
    ("<h2 id=\"notes\">Notes</h2>" : String) = rewriteAnchors (makeHtml "# Notes") ∧
    makeHtml "# Notes" = "<h2 id=\"notes\">Notes</h2>" ∧
    rewriteAnchors "<a href=\"https://x\">note</a>" =
      "<a href=\"https://x\"" ++ anchorAttrs ++ ">note</a>" :=
  changelog_rendering ⟨"1.2.0", false⟩ sampleRecord [] sampleBody "1.3.0" "# Notes"
    false false ⟨1, 2, 0, []⟩ ⟨1, 3, 0, []⟩
    { newVer := "1.3.0", curVer := "1.2.0", changelog := "<h2 id=\"notes\">Notes</h2>",
      releaseURL := some (.str "https://x/1.3.0"), isBeta := some (.bool false),
      downloadURL := "" }
    (by decide) rfl rfl rfl rfl rfl rfl rfl rfl

/-- C6: whenever an update object is produced, `newVer` is the first
record's `tag_name`, `curVer` the running version, `releaseURL` the
record's `html_url`, `isBeta` the record's `prerelease` flag, and
`downloadURL` the empty string. -/
theorem decision_fields (cfg : Config) (r : Json) (rest : List Json)
    (body tag b : String) (dr pr : Bool) (cv tv : SemVer) (d : UpdateDecision)
    (hnb : jsTrim body ≠ "")
    (hp : jsonParse body = .ok (.arr (r :: rest)))
    (htag : getField r "tag_name" = some (.str tag))
    (hb : getField r "body" = some (.str b))
    (hdr : getField r "draft" = some (.bool dr))
    (hpr : getField r "prerelease" = some (.bool pr))
    (hcv : parseSemVer cfg.curVer = some cv)
    (htv : parseSemVer tag = some tv)
    (hok : parseResponse cfg body = .ok d) :
    some (Json.str d.newVer) = getField r "tag_name" ∧
    d.curVer = cfg.curVer ∧
    d.releaseURL = getField r "html_url" ∧
    d.isBeta = some (.bool pr) ∧
    d.downloadURL = "" := by
  rw [parseResponse_wf cfg r rest body tag b dr pr cv tv hnb hp htag hb hdr hpr hcv htv] at hok
  by_cases hc : (semverLtB cv tv && (cfg.checkForBeta || !pr) && !dr) = true
  · rw [if_pos hc] at hok
    have hd := Except.ok.inj hok
    rw [← hd]
    exact ⟨htag.symm, rfl, rfl, hpr, rfl⟩
  · rw [if_neg hc] at hok
    simp at hok

/-- Witness for C6 at an accepted prerelease (so `isBeta` is true). -/
theorem decision_fields_witness :
    some (Json.str "1.3.0-beta.1") = getField betaRecord "tag_name" ∧
    ("1.2.0" : String) = "1.2.0" ∧
    some (Json.str "https://x/beta") = getField betaRecord "html_url" ∧
    some (Json.bool true) = some (Json.bool true) ∧
    ("" : String) = "" :=
  decision_fields ⟨"1.2.0", true⟩ betaRecord [] betaBody "1.3.0-beta.1" "x"
    false true ⟨1, 2, 0, []⟩ ⟨1, 3, 0, [.alpha "beta", .num 1]⟩
    { newVer := "1.3.0-beta.1", curVer := "1.2.0", changelog := "<p>x</p>",
      releaseURL := some (.str "https://x/beta"), isBeta := some (.bool true),
      downloadURL := "" }
    (by decide) rfl rfl rfl rfl rfl rfl rfl rfl

/-- The post-parse logic never looks past the first element of the
feed. -/
theorem parseResponseJson_rest_irrelevant (cfg : Config) (r : Json) (t t' : List Json) :
    parseResponseJson cfg (.arr (r :: t)) = parseResponseJson cfg (.arr (r :: t')) := rfl

/-- C7: the outcome of a check — verdict and every decision field —
depends only on the first record of the parsed feed, the running
version and the beta flag: feeds agreeing on their first record give
identical outcomes whatever their later records (and whatever the
leftover instance state). -/
theorem outcome_first_record_only (cfg : Config) (st₁ st₂ : Slot) (b₁ b₂ : String)
    (r : Json) (t₁ t₂ : List Json)
    (hnb₁ : jsTrim b₁ ≠ "") (hnb₂ : jsTrim b₂ ≠ "")
    (h₁ : jsonParse b₁ = .ok (.arr (r :: t₁)))
    (h₂ : jsonParse b₂ = .ok (.arr (r :: t₂))) :
    (checkSt cfg st₁ (.success b₁)).1 = (checkSt cfg st₂ (.success b₂)).1 := by
  simp only [checkSt, parseResponseSt, if_neg hnb₁, if_neg hnb₂, h₁, h₂]
  exact parseResponseJson_rest_irrelevant cfg r t₁ t₂

/-- Witness for C7: a one-record feed and its two-record extension. -/
theorem outcome_first_record_only_witness :
    (checkSt ⟨"1.2.0", false⟩ (.str "") (.success "[\x7b\"tag_name\":\"1.3.0\"\x7d]")).1 =
    (checkSt ⟨"1.2.0", false⟩ (.val .null) (.success "[\x7b\"tag_name\":\"1.3.0\"\x7d, null]")).1 :=
  outcome_first_record_only ⟨"1.2.0", false⟩ (.str "") (.val .null)
    "[\x7b\"tag_name\":\"1.3.0\"\x7d]" "[\x7b\"tag_name\":\"1.3.0\"\x7d, null]"
    (.obj [("tag_name", .str "1.3.0")]) [] [.null]
    (by decide) (by decide) rfl rfl

/-- C8: checking is idempotent and deterministic — a second run
against the unchanged feed body, starting from whatever instance state
the first run left behind, yields a structurally equal outcome. -/
theorem check_idempotent (cfg : Config) (st : Slot) (body : String) :
    (checkSt cfg (checkSt cfg st (.success body)).2 (.success body)).1 =
    (checkSt cfg st (.success body)).1 := by
  simp only [checkSt]

/-- C9: `run` always returns `true`, forwarding a successful check as
the update-available event and the message of every failure — of any
kind of the taxonomy — to the notification channel; no failure escapes
and none is dropped. -/
theorem run_returns_true_and_forwards (cfg : Config) (st : Slot) (fetch : FetchOutcome) :
    (run cfg st fetch).1 = true ∧
    (run cfg st fetch).2.1 =
      (match (checkSt cfg st fetch).1 with
       | .ok d => RunEffect.updateAvailable d
       | .error e => RunEffect.notify e.message) := by
  rcases h : checkSt cfg st fetch with ⟨res, st'⟩
  cases res <;> simp [run, h]

/-- C10: the body `[]` is non-blank, valid JSON parsing to an empty
release list; the unguarded field accesses on the missing first
element then raise a raw `TypeError` (naming `prerelease` or
`tag_name`, whichever the configuration reads first) instead of the
`no_data` or `no_update` errors. -/
theorem empty_feed_raw_error (cfg : Config) :
    parseResponse cfg "[]" =
      .error (.jsException (undefAccessMsg
        (if cfg.checkForBeta then "tag_name" else "prerelease"))) ∧
    parseResponse cfg "[]" ≠ .error .noData ∧
    parseResponse cfg "[]" ≠ .error .noUpdate := by
  obtain ⟨cv, beta⟩ := cfg
  cases beta
  · refine ⟨rfl, ?_, ?_⟩ <;>
      · show (Except.error (CheckError.jsException (undefAccessMsg "prerelease")) :
          Except CheckError UpdateDecision) ≠ _
        simp
  · refine ⟨rfl, ?_, ?_⟩ <;>
      · show (Except.error (CheckError.jsException (undefAccessMsg "tag_name")) :
          Except CheckError UpdateDecision) ≠ _
        simp

end Zettlr
